import Mathlib

/-!
Verification development for the `socket-flow` WebSocket handshake layer
(`src/handshake.rs`, `src/request.rs`).

Bytes are modelled as `Nat` values (each < 256); byte strings as `List Nat`.
ASCII/UTF-8 conversion of Lean strings is `strBytes`.  SHA-1 and base64 are
embedded from their standard definitions (the Rust code calls the external
`sha1` and `base64` crates, whose observable behaviour the spec fixes as
`base64(SHA1(...))`).
-/

namespace SocketFlow

/-- UTF-8 encoding of one Unicode code point, as a list of byte values. -/
def utf8Char (c : Char) : List Nat :=
  let n := c.toNat
  if n < 0x80 then [n]
  else if n < 0x800 then [0xC0 + n / 64, 0x80 + n % 64]
  else if n < 0x10000 then [0xE0 + n / 4096, 0x80 + n / 64 % 64, 0x80 + n % 64]
  else [0xF0 + n / 262144, 0x80 + n / 4096 % 64, 0x80 + n / 64 % 64, 0x80 + n % 64]

/-- UTF-8 bytes of a string (Rust `str::as_bytes`). -/
def strBytes (s : String) : List Nat :=
  s.data.flatMap utf8Char

/-! ### SHA-1 (FIPS 180-4), over byte lists -/

/-- 2^32, the word modulus of SHA-1. -/
def two32 : Nat := 4294967296

/-- Left-rotation of a 32-bit word held in a `Nat`. -/
def rotl (s x : Nat) : Nat :=
  (x * 2 ^ s + x / 2 ^ (32 - s)) % two32

/-- SHA-1 round constant for round `t`. -/
def sha1K (t : Nat) : Nat :=
  if t < 20 then 0x5A827999
  else if t < 40 then 0x6ED9EBA1
  else if t < 60 then 0x8F1BBCDC
  else 0xCA62C1D6

/-- SHA-1 round function for round `t`. -/
def sha1F (t b c d : Nat) : Nat :=
  if t < 20 then (b &&& c) ||| ((b ^^^ 0xFFFFFFFF) &&& d)
  else if t < 40 then b ^^^ c ^^^ d
  else if t < 60 then (b &&& c) ||| (b &&& d) ||| (c &&& d)
  else b ^^^ c ^^^ d

/-- Big-endian byte decomposition: `n` bytes of value `v`. -/
def beBytes (n v : Nat) : List Nat :=
  match n with
  | 0 => []
  | m + 1 => beBytes m (v / 256) ++ [v % 256]

/-- Group bytes into big-endian 32-bit words. -/
def bytesToWords : List Nat → List Nat
  | a :: b :: c :: d :: rest => (a * 16777216 + b * 65536 + c * 256 + d) :: bytesToWords rest
  | _ => []

/-- SHA-1 message padding: `0x80`, zeros, then the 64-bit bit length. -/
def sha1Pad (msg : List Nat) : List Nat :=
  let len := msg.length
  let z := (64 - (len + 9) % 64) % 64
  msg ++ [128] ++ List.replicate z 0 ++ beBytes 8 (len * 8)

/-- Extend a 16-word schedule to 80 words (`n` extension steps). -/
def sha1Extend (ws : List Nat) : Nat → List Nat
  | 0 => ws
  | n + 1 =>
    let t := ws.length
    let w := rotl 1 (ws.getD (t - 3) 0 ^^^ ws.getD (t - 8) 0 ^^^
                     ws.getD (t - 14) 0 ^^^ ws.getD (t - 16) 0)
    sha1Extend (ws ++ [w]) n

/-- One SHA-1 compression round. -/
def sha1Round (t w : Nat) : Nat × Nat × Nat × Nat × Nat → Nat × Nat × Nat × Nat × Nat
  | (a, b, c, d, e) =>
    ((rotl 5 a + sha1F t b c d + e + sha1K t + w) % two32, a, rotl 30 b, c, d)

/-- Run the 80 compression rounds over the schedule, starting at round `t`. -/
def sha1Rounds (t : Nat) (ws : List Nat) (st : Nat × Nat × Nat × Nat × Nat) :
    Nat × Nat × Nat × Nat × Nat :=
  match ws with
  | [] => st
  | w :: rest => sha1Rounds (t + 1) rest (sha1Round t w st)

/-- Process one 64-byte block into the running hash state. -/
def sha1Block (h : Nat × Nat × Nat × Nat × Nat) (block : List Nat) :
    Nat × Nat × Nat × Nat × Nat :=
  let ws := sha1Extend (bytesToWords block) 64
  match sha1Rounds 0 ws h with
  | (a, b, c, d, e) =>
    ((h.1 + a) % two32, (h.2.1 + b) % two32, (h.2.2.1 + c) % two32,
     (h.2.2.2.1 + d) % two32, (h.2.2.2.2 + e) % two32)

/-- Split a byte list into 64-byte chunks (structural recursion on a fuel
bound so the definition reduces in the kernel; the fuel `l.length` always
suffices since every step consumes at least one byte). -/
def chunks64Go : Nat → List Nat → List (List Nat)
  | 0, _ => []
  | _, [] => []
  | fuel + 1, l => l.take 64 :: chunks64Go fuel (l.drop 64)

/-- Split a byte list into 64-byte chunks. -/
def chunks64 (l : List Nat) : List (List Nat) :=
  chunks64Go l.length l

/-- SHA-1 digest (20 bytes) of a byte list. -/
def sha1 (msg : List Nat) : List Nat :=
  let init := (0x67452301, 0xEFCDAB89, 0x98BADCFE, 0x10325476, 0xC3D2E1F0)
  match (chunks64 (sha1Pad msg)).foldl sha1Block init with
  | (a, b, c, d, e) =>
    beBytes 4 a ++ beBytes 4 b ++ beBytes 4 c ++ beBytes 4 d ++ beBytes 4 e

/-! ### Base64 (standard alphabet, with padding) -/

/-- The standard base64 alphabet. -/
def b64Alphabet : List Char :=
  "ABCDEFGHIJKLMNOPQRSTUVWXYZabcdefghijklmnopqrstuvwxyz0123456789+/".data

/-- The base64 digit for a 6-bit value. -/
def b64Char (n : Nat) : Char := b64Alphabet.getD n 'A'

/-- Standard base64 encoding of a byte list. -/
def base64Encode : List Nat → List Char
  | [] => []
  | [a] => [b64Char (a / 4), b64Char (a % 4 * 16), '=', '=']
  | [a, b] => [b64Char (a / 4), b64Char (a % 4 * 16 + b / 16), b64Char (b % 16 * 4), '=']
  | a :: b :: c :: rest =>
    b64Char (a / 4) :: b64Char (a % 4 * 16 + b / 16) ::
    b64Char (b % 16 * 4 + c / 64) :: b64Char (c % 64) :: base64Encode rest

/-! ### Key codec (`handshake.rs` lines 14-16, 176-181) -/

/-- `const UUID` of `handshake.rs`: the RFC 6455 magic GUID. -/
def UUID : String := "258EAFA5-E914-47DA-95CA-C5AB0DC85B11"

/-- The `Sha1` incremental hasher of the `sha1` crate as used by the source:
`update` appends input, `finalize` hashes the accumulated input. -/
structure Sha1Hasher where
  acc : List Nat

/-- `Sha1::new()`. -/
def Sha1Hasher.new : Sha1Hasher := ⟨[]⟩

/-- `sha1.update(data)`. -/
def Sha1Hasher.update (h : Sha1Hasher) (data : List Nat) : Sha1Hasher :=
  ⟨h.acc ++ data⟩

/-- `sha1.finalize()`. -/
def Sha1Hasher.finalize (h : Sha1Hasher) : List Nat := sha1 h.acc

/-- `generate_websocket_accept_value` (`handshake.rs` 176-181): SHA-1 over the
key bytes then the UUID bytes, base64-encoded.  The key is passed as its
UTF-8 bytes (`key.as_bytes()`). -/
def generate_websocket_accept_value (key : List Nat) : String :=
  String.mk (base64Encode
    ((((Sha1Hasher.new).update key).update (strBytes UUID)).finalize))

/-! ### Byte-level string primitives

The server scan works on the raw byte buffer (`String::from_utf8_lossy`
followed by ASCII substring/line operations; since the marker and all
delimiters are ASCII, and ASCII bytes never occur inside multi-byte UTF-8
sequences nor inside the U+FFFD replacement, the search and the line split
on the lossily-decoded text coincide with the same operations on bytes). -/

/-- First index at which `pat` occurs in `s` (Rust `str::find` with a string
pattern), `none` if absent. -/
def findSub [DecidableEq α] (pat s : List α) : Option Nat :=
  go s 0
where
  go : List α → Nat → Option Nat
    | [], i => if pat.isEmpty then some i else none
    | s@(_ :: rest), i => if pat.isPrefixOf s then some i else go rest (i + 1)

/-- Split on a delimiter, Rust `str::split` style: always at least one part. -/
def splitOnByte (b : Nat) : List Nat → List (List Nat)
  | [] => [[]]
  | c :: rest =>
    if c = b then [] :: splitOnByte b rest
    else match splitOnByte b rest with
      | [] => [[c]]
      | p :: ps => (c :: p) :: ps

/-- Strip one trailing `\r` (Rust `str::lines` line post-processing). -/
def stripCR (l : List Nat) : List Nat :=
  if l.getLast? = some 13 then l.dropLast else l

/-- Rust `str::lines` on bytes: split on `\n`, drop a final empty line caused
by a trailing `\n`, strip a trailing `\r` from each line; the empty string
has no lines. -/
def linesOf (l : List Nat) : List (List Nat) :=
  if l = [] then []
  else
    let parts := splitOnByte 10 l
    (if l.getLast? = some 10 then parts.dropLast else parts).map stripCR

/-- `lines().next()`: the first line, if any. -/
def linesNext (l : List Nat) : Option (List Nat) :=
  (linesOf l).head?

/-- ASCII whitespace bytes (the bytes on which Rust `split_whitespace`
splits; the non-ASCII Unicode whitespace code points are multi-byte in
UTF-8 and do not occur in handshake headers). -/
def isWsByte (b : Nat) : Bool :=
  b = 32 || b = 9 || b = 10 || b = 11 || b = 12 || b = 13

/-- `split_whitespace().next()`: first maximal run of non-whitespace, `none`
when the input is empty or all whitespace. -/
def splitWsNext (l : List Nat) : Option (List Nat) :=
  let l2 := l.dropWhile isWsByte
  if l2.isEmpty then none else some (l2.takeWhile (fun b => !isWsByte b))

/-! ### Server header scan (`handshake.rs` lines 14, 133-174) -/

/-- `const SEC_WEBSOCKETS_KEY` of `handshake.rs`. -/
def SEC_WEBSOCKETS_KEY : String := "Sec-WebSocket-Key:"

/-- The marker as bytes. -/
def markerBytes : List Nat := strBytes SEC_WEBSOCKETS_KEY

/-- One outcome of a single `timeout(10s, read(&mut tmp_buf))` attempt in
`header_read`: the read timed out (`Err(_)` of the timeout), it returned
the bytes `bs` (`Ok(Ok(n))`; `bs = []` is the zero-byte read of a closed
peer; `tmp_buf` holds 1024 bytes, so a faithful stream has
`bs.length ≤ 1024`), or the read itself failed with an I/O error
(`Ok(Err(_))`, the case swallowed by the `_ => {}` arm). -/
inductive ReadEvent where
  | timeout
  | chunk (bs : List Nat)
  | readErr
deriving DecidableEq

/-- The state produced by the scan loop of `header_read`: the extracted raw
header line (if the marker was found), the final accumulated buffer, and
the number of loop iterations executed. -/
structure ScanState where
  header : Option (List Nat)
  buf : List Nat
  iters : Nat
deriving DecidableEq

/-- The `while header_buf.len() <= 1024 * 16` loop of `header_read`
(`handshake.rs` 139-154): while the guard holds, perform one read; a
timeout or a zero-byte read breaks with no header; a read error falls into
the silent `_ => {}` arm — the loop neither breaks nor grows the buffer
and simply iterates again; otherwise the chunk is appended to the buffer
and the buffer is searched for the marker — on a hit the first line from
the marker onward becomes the header and the loop breaks.  An exhausted
event list models a stream with no further read outcomes. -/
def headerScan : List ReadEvent → List Nat → ScanState
  | [], buf => ⟨none, buf, 0⟩
  | e :: rest, buf =>
    if buf.length ≤ 1024 * 16 then
      match e with
      | .timeout => ⟨none, buf, 1⟩
      | .chunk [] => ⟨none, buf, 1⟩
      | .chunk bs =>
        let buf2 := buf ++ bs
        match findSub markerBytes buf2 with
        | some start => ⟨linesNext (buf2.drop start), buf2, 1⟩
        | none =>
          let st := headerScan rest buf2
          ⟨st.header, st.buf, st.iters + 1⟩
      | .readErr =>
        let st := headerScan rest buf
        ⟨st.header, st.buf, st.iters + 1⟩
    else ⟨none, buf, 0⟩

/-- The number of read-error outcomes in a stream (the reads swallowed by
the `_ => {}` arm). -/
def countReadErr : List ReadEvent → Nat
  | [] => 0
  | .readErr :: rest => countReadErr rest + 1
  | _ :: rest => countReadErr rest

/-- `parse_websocket_key` (`handshake.rs` 165-174): in the first line that
starts with the marker, the first whitespace-separated token after the
marker label. -/
def parse_websocket_key (header : List Nat) : Option (List Nat) :=
  go (linesOf header)
where
  go : List (List Nat) → Option (List Nat)
    | [] => none
    | line :: rest =>
      if markerBytes.isPrefixOf line then
        splitWsNext (line.drop markerBytes.length)
      else go rest

/-- `header_read` (`handshake.rs` 133-163): run the scan loop, then, if a
header line was found and a key parses out of it, the accept value for
that key. -/
def header_read (events : List ReadEvent) : Option String :=
  ((headerScan events []).header.bind parse_websocket_key).map
    generate_websocket_accept_value

/-! ### Errors, accept path, client verification -/

/-- The error variants of `crate::error::Error` used by `handshake.rs` and
`request.rs` (the enum itself lives in `error.rs`, outside the provided
sources; the variant names are those referenced by the provided code and
the spec's §7 taxonomy). -/
inductive Error where
  | NoSecWebsocketKey
  | NoUpgrade
  | InvalidAcceptKey
  | InvalidSchemeURL
  | URLNoHost
deriving DecidableEq

/-- Rust `str::replace` with a non-empty pattern, on character lists: every
non-overlapping occurrence of `pat` in the subject (scanned left to right)
is replaced by `repl`; the result is not re-scanned. -/
def strReplace (pat repl : List Char) (s : List Char) : List Char :=
  go s.length s
where
  go : Nat → List Char → List Char
    | 0, s => s
    | _, [] => []
    | fuel + 1, s@(c :: rest) =>
      if !pat.isEmpty && pat.isPrefixOf s then
        repl ++ go fuel (s.drop pat.length)
      else c :: go fuel rest

/-- `const HTTP_ACCEPT_RESPONSE` of `handshake.rs` (18-22): the Rust string
continuations (`\` at end of line) delete the newline and all leading
whitespace of the following line, so the constant is this single-line
template. -/
def HTTP_ACCEPT_RESPONSE : String :=
  "HTTP/1.1 101 Switching Protocols\r\nConnection: Upgrade\r\nUpgrade: websocket\r\nSec-WebSocket-Accept: \x7b\x7d\r\n\r\n"

/-- The placeholder replaced in the response template. -/
def placeholder : String := "\x7b\x7d"

/-- The handshake phase of `accept_async` (`handshake.rs` 30-48): run
`header_read`; if it produced an accept value, the response template with
the accept value substituted is written to the transport (`.ok` carries
exactly the text written); otherwise the function returns
`Error::NoSecWebsocketKey` having written nothing. -/
def accept_async (events : List ReadEvent) : Except Error String :=
  match header_read events with
  | some accept_value =>
    .ok (String.mk (strReplace placeholder.data accept_value.data
          HTTP_ACCEPT_RESPONSE.data))
  | none => .error .NoSecWebsocketKey

/-- `const SWITCHING_PROTOCOLS` of `handshake.rs`. -/
def SWITCHING_PROTOCOLS : String := "101 Switching Protocols"

/-- Rust `str::contains` with a string pattern. -/
def containsStr (s pat : String) : Bool :=
  (findSub pat.data s.data).isSome

/-- The response-verification section of `connect_async` (`handshake.rs`
112-123): the decoded response text must contain `101 Switching Protocols`
(else `NoUpgrade`) and the accept value expected for the client's key
(else `InvalidAcceptKey`); only then does the connection proceed. -/
def connect_verify (response : String) (client_websocket_key : List Nat) :
    Except Error Unit :=
  if !containsStr response SWITCHING_PROTOCOLS then
    .error .NoUpgrade
  else if !containsStr response
      (generate_websocket_accept_value client_websocket_key) then
    .error .InvalidAcceptKey
  else
    .ok ()

/-! ### Endpoint resolver (`request.rs` 7-41) -/

/-- The fields of a parsed URL that `parse_to_http_request` reads through
the `url` crate's accessors (`scheme()`, `host_str()`, `port()`, `path()`,
`query()`). -/
structure Url where
  scheme : String
  host : Option String
  port : Option Nat
  path : String
  query : Option String
deriving DecidableEq

/-- `parse_to_http_request` (`request.rs` 7-41) on an already-parsed URL:
match the scheme (`ws` → port 80, `wss` → port 443 and TLS, anything else
`InvalidSchemeURL`); require a host (`URLNoHost`); take the URL's port or
the scheme default; build the request path from path and optional query;
return the upgrade request text, `host:port`, the host, and the TLS flag. -/
def parse_to_http_request (u : Url) (key : String) :
    Except Error (String × String × String × Bool) := do
  let (http_port, use_tls) ←
    match u.scheme with
    | "ws" => Except.ok ((80 : Nat), false)
    | "wss" => Except.ok (443, true)
    | _ => Except.error Error.InvalidSchemeURL
  let host ←
    match u.host with
    | some h => Except.ok h
    | none => Except.error Error.URLNoHost
  let port := u.port.getD http_port
  let host_with_port := host ++ ":" ++ toString port
  let request_path :=
    match u.query with
    | some query => u.path ++ "?" ++ query
    | none => u.path
  let request :=
    "GET " ++ request_path ++ " HTTP/1.1\r\nHost: " ++ host ++
    "\r\nConnection: Upgrade\r\nUpgrade: websocket\r\nSec-WebSocket-Key: " ++
    key ++ "\r\nSec-WebSocket-Version: 13\r\n\r\n"
  return (request, host_with_port, host, use_tls)

/-- A handshake request containing the canonical RFC 6455 example key line. -/
def sampleRequest : String :=
  "GET /chat HTTP/1.1\r\nHost: server\r\nUpgrade: websocket\r\nConnection: Upgrade\r\nSec-WebSocket-Key: dGhlIHNhbXBsZSBub25jZQ==\r\nSec-WebSocket-Version: 13\r\n\r\n"

/-! ### Supporting lemmas -/

theorem findSub_go_prefixOf {α} [DecidableEq α] (pat : List α) :
    ∀ (s : List α) (i j : Nat), findSub.go pat s i = some j →
      i ≤ j ∧ pat.isPrefixOf (s.drop (j - i)) = true := by
  intro s
  induction s with
  | nil =>
    intro i j h
    simp only [findSub.go] at h
    split at h
    · next he =>
      cases h
      exact ⟨Nat.le_refl _, by simp_all [List.isEmpty_iff]⟩
    · cases h
  | cons c rest ih =>
    intro i j h
    simp only [findSub.go] at h
    split at h
    · next hp =>
      cases h
      simpa using hp
    · have hrec := ih (i + 1) j h
      refine ⟨by omega, ?_⟩
      have hij : j - i = (j - (i + 1)) + 1 := by omega
      rw [hij]
      simpa using hrec.2

theorem findSub_prefixOf {α} [DecidableEq α] (pat s : List α) (i : Nat) :
    findSub pat s = some i → pat.isPrefixOf (s.drop i) = true := by
  intro h
  have := findSub_go_prefixOf pat s 0 i h
  simpa using this.2

theorem splitOnByte_ne_nil (b : Nat) : ∀ l : List Nat, splitOnByte b l ≠ [] := by
  intro l
  cases l with
  | nil => simp [splitOnByte]
  | cons c rest =>
    simp only [splitOnByte]
    split
    · simp
    · split <;> simp

theorem splitOnByte_two (b : Nat) : ∀ l : List Nat,
    l.getLast? = some b → 2 ≤ (splitOnByte b l).length := by
  intro l
  induction l with
  | nil => intro h; cases h
  | cons c rest ih =>
    intro h
    cases rest with
    | nil =>
      simp at h
      subst h
      simp [splitOnByte]
    | cons d rest2 =>
      have hlast : (d :: rest2).getLast? = some b := by
        rwa [List.getLast?_cons_cons] at h
      have h2 := ih hlast
      have hne := splitOnByte_ne_nil b (d :: rest2)
      rw [splitOnByte]
      by_cases hcb : c = b
      · rw [if_pos hcb]
        simp only [List.length_cons]
        omega
      · rw [if_neg hcb]
        rcases hsp : splitOnByte b (d :: rest2) with _ | ⟨p, ps⟩
        · exact absurd hsp hne
        · rw [hsp] at h2
          simp only [List.length_cons] at h2 ⊢
          omega

theorem linesOf_ne_nil : ∀ l : List Nat, l ≠ [] → linesOf l ≠ [] := by
  intro l hl
  rw [linesOf, if_neg hl]
  by_cases hlast : l.getLast? = some 10
  · have h2 := splitOnByte_two 10 l hlast
    simp only [hlast, if_true, reduceIte]
    intro hmap
    rw [List.map_eq_nil_iff] at hmap
    have := congrArg List.length hmap
    simp only [List.length_dropLast, List.length_nil] at this
    omega
  · simp only [hlast, reduceIte]
    intro hmap
    rw [List.map_eq_nil_iff] at hmap
    exact splitOnByte_ne_nil 10 l hmap

theorem linesNext_isSome : ∀ l : List Nat, l ≠ [] → (linesNext l).isSome = true := by
  intro l hl
  rw [linesNext]
  rcases h : linesOf l with _ | ⟨p, ps⟩
  · exact absurd h (linesOf_ne_nil l hl)
  · simp

theorem headerScan_iters_le : ∀ (events : List ReadEvent) (buf : List Nat),
    (headerScan events buf).iters ≤ (16385 - buf.length) + countReadErr events := by
  intro events
  induction events with
  | nil => intro buf; simp [headerScan]
  | cons e rest ih =>
    intro buf
    cases e with
    | timeout =>
      simp only [headerScan, countReadErr]
      split
      · simp
        omega
      · simp
    | readErr =>
      simp only [headerScan, countReadErr]
      split
      · have h2 := ih buf
        simp only []
        omega
      · simp
    | chunk bs =>
      cases bs with
      | nil =>
        simp only [headerScan, countReadErr]
        split
        · simp
          omega
        · simp
      | cons b bs =>
        simp only [headerScan, countReadErr]
        split
        · next hg =>
          split
          · simp
            omega
          · have h2 := ih (buf ++ b :: bs)
            simp only [List.length_append, List.length_cons] at h2 ⊢
            omega
        · simp

theorem headerScan_readErr_iters : ∀ (m : Nat) (buf : List Nat),
    buf.length ≤ 1024 * 16 →
    (headerScan (List.replicate m ReadEvent.readErr) buf).iters = m := by
  intro m
  induction m with
  | zero => intro buf _; simp [headerScan]
  | succ m ih =>
    intro buf hb
    rw [List.replicate_succ]
    simp only [headerScan]
    rw [if_pos hb]
    simp only [ih buf hb]

theorem headerScan_header_none : ∀ (events : List ReadEvent) (buf : List Nat),
    findSub markerBytes (headerScan events buf).buf = none →
    (headerScan events buf).header = none := by
  intro events
  induction events with
  | nil => intro buf _; simp [headerScan]
  | cons e rest ih =>
    intro buf hnone
    cases e with
    | timeout =>
      simp only [headerScan]
      split <;> rfl
    | readErr =>
      by_cases hg : buf.length ≤ 1024 * 16
      · simp only [headerScan, hg, if_true] at hnone ⊢
        exact ih buf hnone
      · simp [headerScan, hg]
    | chunk bs =>
      cases bs with
      | nil =>
        simp only [headerScan]
        split <;> rfl
      | cons b bs =>
        by_cases hg : buf.length ≤ 1024 * 16
        · rcases hfind : findSub markerBytes (buf ++ b :: bs) with _ | start
          · simp only [headerScan, hg, if_true, hfind] at hnone ⊢
            exact ih (buf ++ b :: bs) hnone
          · simp only [headerScan, hg, if_true, hfind] at hnone ⊢
            exact absurd hnone (by simp [hfind])
        · simp [headerScan, hg]

theorem findSub_replicate_none (n : Nat) :
    findSub markerBytes (List.replicate n 97) = none := by
  rcases h : findSub markerBytes (List.replicate n 97) with _ | i
  · rfl
  · exfalso
    have hp := findSub_prefixOf markerBytes _ i h
    rw [List.isPrefixOf_iff_prefix] at hp
    rw [List.drop_replicate] at hp
    have hmem : (83 : Nat) ∈ markerBytes := by decide
    have := List.eq_of_mem_replicate (hp.subset hmem)
    omega

theorem headerScan_buf_of_gt (events : List ReadEvent) (buf : List Nat)
    (h : ¬ buf.length ≤ 1024 * 16) : (headerScan events buf).buf = buf := by
  cases events with
  | nil => rfl
  | cons e rest =>
    cases e with
    | timeout => simp [headerScan, h]
    | readErr => simp [headerScan, h]
    | chunk bs =>
      cases bs with
      | nil => simp [headerScan, h]
      | cons b bs2 => simp [headerScan, h]

theorem scan_replicate_gt : ∀ (m k : Nat), k ≤ 16384 → 16384 < k + 1024 * m →
    16384 < (headerScan (List.replicate m (ReadEvent.chunk (List.replicate 1024 97)))
      (List.replicate k 97)).buf.length := by
  intro m
  induction m with
  | zero => intro k hk habs; omega
  | succ m ih =>
    intro k hk hbound
    rw [List.replicate_succ]
    have hrep : (List.replicate 1024 (97 : Nat)) = 97 :: List.replicate 1023 97 :=
      List.replicate_succ ..
    rw [hrep]
    simp only [headerScan]
    rw [if_pos (by simpa using hk)]
    have happ : List.replicate k (97 : Nat) ++ 97 :: List.replicate 1023 97 =
        List.replicate (k + 1024) 97 := by
      rw [← hrep, ← List.replicate_add]
    simp only [happ, findSub_replicate_none]
    by_cases hk2 : k + 1024 ≤ 16384
    · have := ih (k + 1024) hk2 (by omega)
      rw [← hrep]
      exact this
    · rw [headerScan_buf_of_gt _ _ (by simpa using hk2)]
      simp only [List.length_replicate]
      omega

/-! ### Claim theorems -/

/-- C1: for every key string `k`, the accept value computed by
`generate_websocket_accept_value` equals
`base64(SHA1(bytes(k) ++ bytes("258EAFA5-E914-47DA-95CA-C5AB0DC85B11")))`;
the computation is a total Lean function, so repeated calls on the same `k`
return the same string and never fail. -/
theorem c1_accept_value_spec : ∀ k : String,
    generate_websocket_accept_value (strBytes k) =
      String.mk (base64Encode (sha1 (strBytes k ++ strBytes UUID))) ∧
    generate_websocket_accept_value (strBytes k) =
      generate_websocket_accept_value (strBytes k) := by
  intro k
  exact ⟨rfl, rfl⟩

/-- C2 counterexample: the buffer of the server header scan is NOT bounded
by 16384 bytes — seventeen 1024-byte reads containing no marker drive it
to 17408 bytes, because the loop guard still admits a read when the buffer
holds exactly 16384 bytes. -/
theorem c2_buffer_exceeds_ceiling :
    16384 <
      (headerScan (List.replicate 17 (ReadEvent.chunk (List.replicate 1024 97)))
        []).buf.length := by
  have h0 : (List.replicate 0 (97 : Nat)) = [] := rfl
  rw [← h0]
  exact scan_replicate_gt 17 0 (by omega) (by omega)

/-- C2 amended: for every input byte stream whose individual reads return at
most 1024 bytes (the size of `tmp_buf`), the byte accumulator never holds
more than 16384 + 1024 = 17408 bytes at any point of the scan (stated as an
invariant over every reachable buffer state). -/
theorem c2_buffer_bounded_17408 : ∀ (events : List ReadEvent) (buf : List Nat),
    (∀ bs, ReadEvent.chunk bs ∈ events → bs.length ≤ 1024) →
    buf.length ≤ 17408 →
    (headerScan events buf).buf.length ≤ 17408 := by
  intro events
  induction events with
  | nil => intro buf _ hb; simpa [headerScan] using hb
  | cons e rest ih =>
    intro buf hc hb
    cases e with
    | timeout =>
      simp only [headerScan]
      split <;> simpa
    | readErr =>
      simp only [headerScan]
      split
      · exact ih buf (fun bs2 h2 => hc bs2 (List.mem_cons_of_mem _ h2)) hb
      · simpa
    | chunk bs =>
      cases bs with
      | nil =>
        simp only [headerScan]
        split <;> simpa
      | cons b bs =>
        have hlen : (b :: bs).length ≤ 1024 := hc _ (by simp)
        simp only [headerScan]
        split
        · next hg =>
          split
          · simp only [List.length_append]
            omega
          · exact ih (buf ++ b :: bs)
              (fun bs2 h2 => hc bs2 (List.mem_cons_of_mem _ h2))
              (by simp only [List.length_append]; omega)
        · simpa

/-- Witness for C2 amended at a concrete one-chunk stream. -/
theorem c2_buffer_bounded_17408_witness :
    (headerScan [ReadEvent.chunk [97]] []).buf.length ≤ 17408 :=
  c2_buffer_bounded_17408 [ReadEvent.chunk [97]] []
    (by intro bs h; simp at h; subst h; decide) (by simp)

/-- C3: for every inbound byte stream in which the marker
`Sec-WebSocket-Key:` never occurs in the bytes scanned (the final
accumulated buffer, of which every intermediate buffer is a prefix),
`accept_async` returns `NoSecWebsocketKey`; the `.error` result carries no
written response — the success response is written only on the `.ok` path. -/
theorem c3_no_marker_no_key_error : ∀ events : List ReadEvent,
    findSub markerBytes (headerScan events []).buf = none →
    accept_async events = .error .NoSecWebsocketKey := by
  intro events h
  have hh := headerScan_header_none events [] h
  rw [accept_async, header_read, hh]
  rfl

/-- Witness for C3 at a concrete stream without the marker. -/
theorem c3_no_marker_no_key_error_witness :
    accept_async [ReadEvent.chunk (strBytes "GET / HTTP/1.1")] =
      .error .NoSecWebsocketKey :=
  c3_no_marker_no_key_error [ReadEvent.chunk (strBytes "GET / HTTP/1.1")]
    (by decide)

set_option maxRecDepth 100000 in
/-- C4: on a stream containing the line
`Sec-WebSocket-Key: dGhlIHNhbXBsZSBub25jZQ==\r\n`, the scan extracts that
header line, the key parsed from it is exactly `dGhlIHNhbXBsZSBub25jZQ==`,
and the computed accept value is `s3pPLMBiTxaQ9kYGzzhZRbK+xOo=` (also via
the full `header_read` pipeline). -/
theorem c4_rfc6455_example :
    (headerScan [ReadEvent.chunk (strBytes sampleRequest)] []).header =
      some (strBytes "Sec-WebSocket-Key: dGhlIHNhbXBsZSBub25jZQ==") ∧
    parse_websocket_key (strBytes "Sec-WebSocket-Key: dGhlIHNhbXBsZSBub25jZQ==") =
      some (strBytes "dGhlIHNhbXBsZSBub25jZQ==") ∧
    generate_websocket_accept_value (strBytes "dGhlIHNhbXBsZSBub25jZQ==") =
      "s3pPLMBiTxaQ9kYGzzhZRbK+xOo=" ∧
    header_read [ReadEvent.chunk (strBytes sampleRequest)] =
      some "s3pPLMBiTxaQ9kYGzzhZRbK+xOo=" :=
  ⟨by decide, by decide, by decide, by decide⟩

/-- C5: in client handshake verification, a response without
`101 Switching Protocols` fails with `NoUpgrade`, and a response with it
but without the accept value expected for the client's key fails with
`InvalidAcceptKey`; in both cases the result is an `.error`, so no
connection is produced. -/
theorem c5_client_verification_errors : ∀ (response : String) (key : List Nat),
    (containsStr response SWITCHING_PROTOCOLS = false →
      connect_verify response key = .error .NoUpgrade) ∧
    (containsStr response SWITCHING_PROTOCOLS = true →
     containsStr response (generate_websocket_accept_value key) = false →
      connect_verify response key = .error .InvalidAcceptKey) := by
  intro r k
  constructor
  · intro h
    simp [connect_verify, h]
  · intro h1 h2
    simp [connect_verify, h1, h2]

set_option maxRecDepth 100000 in
/-- Witness for C5 at concrete responses and the RFC example key. -/
theorem c5_client_verification_errors_witness :
    connect_verify "HTTP/1.1 400 Bad Request\r\n\r\n"
      (strBytes "dGhlIHNhbXBsZSBub25jZQ==") = .error .NoUpgrade ∧
    connect_verify "HTTP/1.1 101 Switching Protocols\r\nSec-WebSocket-Accept: WRONG\r\n\r\n"
      (strBytes "dGhlIHNhbXBsZSBub25jZQ==") = .error .InvalidAcceptKey :=
  ⟨(c5_client_verification_errors _ _).1 (by decide),
   (c5_client_verification_errors _ _).2 (by decide) (by decide)⟩

/-- C6 counterexample: a parseable URL with no host component but whose
scheme is also not `ws`/`wss` (e.g. `mailto:a@b`) fails with
`InvalidSchemeURL`, not with the missing-host error, because the scheme
check precedes the host check. -/
theorem c6_host_check_after_scheme :
    (Url.mk "mailto" none none "a@b" none).host = none ∧
    parse_to_http_request (Url.mk "mailto" none none "a@b" none) "key" ≠
      Except.error Error.URLNoHost ∧
    parse_to_http_request (Url.mk "mailto" none none "a@b" none) "key" =
      Except.error Error.InvalidSchemeURL := by
  refine ⟨rfl, fun h => absurd (Except.error.inj h) (by decide), rfl⟩

/-- C6 amended: a URL whose scheme is neither `ws` nor `wss` fails with
`InvalidScheme` (even if the host is also missing); a URL with scheme
`ws`/`wss` and no host fails with `MissingHost`; resolution succeeds only
when the scheme is `ws` or `wss` and a host is present. -/
theorem c6_resolver_error_cases : ∀ (u : Url) (k : String),
    (u.scheme ≠ "ws" → u.scheme ≠ "wss" →
      parse_to_http_request u k = .error .InvalidSchemeURL) ∧
    ((u.scheme = "ws" ∨ u.scheme = "wss") → u.host = none →
      parse_to_http_request u k = .error .URLNoHost) ∧
    (∀ r, parse_to_http_request u k = .ok r →
      (u.scheme = "ws" ∨ u.scheme = "wss") ∧ u.host ≠ none) := by
  intro u k
  simp only [parse_to_http_request]
  split
  · next hs =>
    refine ⟨fun h1 _ => absurd hs h1, fun _ hh => ?_, fun r hr => ?_⟩
    · simp only [hh]
      rfl
    · rcases hcase : u.host with _ | h
      · rw [hcase] at hr
        cases hr
      · exact ⟨Or.inl hs, by simp [hcase]⟩
  · next hs =>
    refine ⟨fun _ h2 => absurd hs h2, fun _ hh => ?_, fun r hr => ?_⟩
    · simp only [hh]
      rfl
    · rcases hcase : u.host with _ | h
      · rw [hcase] at hr
        cases hr
      · exact ⟨Or.inr hs, by simp [hcase]⟩
  · next hs1 hs2 =>
    refine ⟨fun _ _ => rfl, fun hor _ => ?_, fun r hr => ?_⟩
    · rcases hor with h | h
      · exact absurd h (fun hh => hs1 hh)
      · exact absurd h (fun hh => hs2 hh)
    · cases hr

/-- Witness for C6 amended: each of the three cases at a concrete URL. -/
theorem c6_resolver_error_cases_witness :
    parse_to_http_request (Url.mk "http" (some "example.com") none "/" none) "k" =
      .error .InvalidSchemeURL ∧
    parse_to_http_request (Url.mk "ws" none none "/" none) "k" =
      .error .URLNoHost ∧
    ((Url.mk "ws" (some "example.com") none "/" none).scheme = "ws" ∨
     (Url.mk "ws" (some "example.com") none "/" none).scheme = "wss") ∧
    (Url.mk "ws" (some "example.com") none "/" none).host ≠ none :=
  ⟨(c6_resolver_error_cases _ "k").1 (by decide) (by decide),
   (c6_resolver_error_cases _ "k").2.1 (Or.inl rfl) rfl,
   (c6_resolver_error_cases (Url.mk "ws" (some "example.com") none "/" none)
      "k").2.2
     ("GET / HTTP/1.1\r\nHost: example.com\r\nConnection: Upgrade\r\nUpgrade: websocket\r\nSec-WebSocket-Key: k\r\nSec-WebSocket-Version: 13\r\n\r\n",
      "example.com:80", "example.com", false) rfl⟩

/-- C7: with a host present, resolution yields the request whose path is
the URL path plus `?query` when a query is present, the effective port
`u.port` defaulted to 80 (`ws`) or 443 (`wss`), and `use_tls` false for
`ws` and true for `wss`. -/
theorem c7_port_path_tls : ∀ (u : Url) (k h : String), u.host = some h →
    (u.scheme = "ws" → parse_to_http_request u k = .ok (
      "GET " ++ (match u.query with
        | some q => u.path ++ "?" ++ q
        | none => u.path) ++
      " HTTP/1.1\r\nHost: " ++ h ++
      "\r\nConnection: Upgrade\r\nUpgrade: websocket\r\nSec-WebSocket-Key: " ++
      k ++ "\r\nSec-WebSocket-Version: 13\r\n\r\n",
      h ++ ":" ++ toString (u.port.getD 80), h, false)) ∧
    (u.scheme = "wss" → parse_to_http_request u k = .ok (
      "GET " ++ (match u.query with
        | some q => u.path ++ "?" ++ q
        | none => u.path) ++
      " HTTP/1.1\r\nHost: " ++ h ++
      "\r\nConnection: Upgrade\r\nUpgrade: websocket\r\nSec-WebSocket-Key: " ++
      k ++ "\r\nSec-WebSocket-Version: 13\r\n\r\n",
      h ++ ":" ++ toString (u.port.getD 443), h, true)) := by
  intro u k h hh
  constructor <;> intro hs <;> simp only [parse_to_http_request, hs, hh] <;> rfl

/-- Witness for C7: `ws://example.com/chat?x=1` yields path `/chat?x=1`,
port 80, `use_tls = false`; `wss://example.com/chat` yields port 443,
`use_tls = true`. -/
theorem c7_port_path_tls_witness :
    parse_to_http_request (Url.mk "ws" (some "example.com") none "/chat" (some "x=1")) "k" =
      .ok ("GET /chat?x=1 HTTP/1.1\r\nHost: example.com\r\nConnection: Upgrade\r\nUpgrade: websocket\r\nSec-WebSocket-Key: k\r\nSec-WebSocket-Version: 13\r\n\r\n",
           "example.com:80", "example.com", false) ∧
    parse_to_http_request (Url.mk "wss" (some "example.com") none "/chat" none) "k" =
      .ok ("GET /chat HTTP/1.1\r\nHost: example.com\r\nConnection: Upgrade\r\nUpgrade: websocket\r\nSec-WebSocket-Key: k\r\nSec-WebSocket-Version: 13\r\n\r\n",
           "example.com:443", "example.com", true) :=
  ⟨(c7_port_path_tls _ "k" "example.com" rfl).1 rfl,
   (c7_port_path_tls _ "k" "example.com" rfl).2 rfl⟩

set_option maxRecDepth 100000 in
/-- C8: whenever the scan produced an accept value `a`, the bytes written
as the success response are exactly the fixed template with `a`
substituted — `HTTP/1.1 101 Switching Protocols\r\nConnection:
Upgrade\r\nUpgrade: websocket\r\nSec-WebSocket-Accept: a\r\n\r\n` — and
nothing else. -/
theorem c8_accept_response_exact : ∀ (events : List ReadEvent) (a : String),
    header_read events = some a →
    accept_async events = .ok
      ("HTTP/1.1 101 Switching Protocols\r\nConnection: Upgrade\r\nUpgrade: websocket\r\nSec-WebSocket-Accept: "
        ++ a ++ "\r\n\r\n") := by
  intro events a h
  simp only [accept_async, h]
  cases a
  rfl

set_option maxRecDepth 100000 in
/-- Witness for C8 at the RFC 6455 example stream. -/
theorem c8_accept_response_exact_witness :
    accept_async [ReadEvent.chunk (strBytes sampleRequest)] = .ok
      ("HTTP/1.1 101 Switching Protocols\r\nConnection: Upgrade\r\nUpgrade: websocket\r\nSec-WebSocket-Accept: "
        ++ "s3pPLMBiTxaQ9kYGzzhZRbK+xOo=" ++ "\r\n\r\n") :=
  c8_accept_response_exact [ReadEvent.chunk (strBytes sampleRequest)]
    "s3pPLMBiTxaQ9kYGzzhZRbK+xOo=" (by decide)

/-- C9: whenever the marker `Sec-WebSocket-Key:` is found at index `i` of
the scanned buffer, the suffix from `i` onward is non-empty, so taking its
first line (the `unwrap` on `lines().next()`) always yields a value — the
scan never panics. -/
theorem c9_marker_line_unwrap_safe : ∀ (buf : List Nat) (i : Nat),
    findSub markerBytes buf = some i →
    (linesNext (buf.drop i)).isSome = true := by
  intro buf i h
  have hp := findSub_prefixOf markerBytes buf i h
  rw [List.isPrefixOf_iff_prefix] at hp
  have hlen := hp.length_le
  have hm : markerBytes.length = 18 := by decide
  apply linesNext_isSome
  intro hnil
  rw [hnil] at hlen
  simp only [List.length_nil, Nat.le_zero] at hlen
  omega

/-- Witness for C9 at a concrete buffer containing the marker. -/
theorem c9_marker_line_unwrap_safe_witness :
    (linesNext ((strBytes "Sec-WebSocket-Key: abc\r\n").drop 0)).isSome = true :=
  c9_marker_line_unwrap_safe (strBytes "Sec-WebSocket-Key: abc\r\n") 0 (by decide)

/-- C10 counterexample: the loop is NOT bounded by 16385 iterations — the
`_ => {}` arm swallows a read that fails with an I/O error without
breaking the loop or growing the buffer, so a stream of 16386 erroring
reads drives the loop through 16386 iterations (and arbitrarily many more
with longer error streams: the scan need not terminate). -/
theorem c10_scan_iterations_exceed_16385 :
    16385 <
      (headerScan (List.replicate 16386 ReadEvent.readErr) []).iters := by
  rw [headerScan_readErr_iters 16386 [] (by simp)]
  omega

/-- C10 amended: each loop iteration either breaks (timeout, zero-byte
read, marker found), grows the buffer by at least one byte — with the
guard bounding such iterations by 16385 — or is a swallowed read-error
iteration (`_ => {}`) that neither breaks nor makes progress; hence the
iteration count is bounded by 16385 plus the number of read-error
outcomes in the stream, and only read errors can prolong the scan. -/
theorem c10_scan_iterations_bounded : ∀ events : List ReadEvent,
    (headerScan events []).iters ≤ 16385 + countReadErr events := by
  intro events
  have := headerScan_iters_le events []
  simpa using this

end SocketFlow
